import Mathlib

/-!
Verification development for the Mesos Docker provisioner pipeline and the
curl URI fetcher plugin.

The curl fetcher plugin (src/src/uri/fetchers/curl.cpp) is embedded directly
from its source.  The Docker provisioner components (token validation,
registry client, manifest codec, pullers, metadata manager and store) are not
present under src/ — only their tests are — so their operations are modelled
from the specification, as noted on each definition.
-/

set_option maxHeartbeats 1000000

namespace Mesos

/-- Readiness state of a libprocess future as observed by a continuation:
ready with a value, failed with an error message, or discarded. -/
inductive Fut (α : Type) where
  | ready (a : α)
  | failed (msg : String)
  | discarded
  deriving DecidableEq, Repr

/-- Numeric value of a decimal digit string, most significant digit first. -/
def digitsToNat (l : List Char) : Nat :=
  l.foldl (fun acc c => acc * 10 + (c.toNat - 48)) 0

/-- Models stout numify as used on the stdout that curl produces for the
write-out option http_code: parsing succeeds exactly on a nonempty all-digit
string, yielding its decimal value. -/
def numify (s : String) : Option Nat :=
  if s.data ≠ [] ∧ s.data.all (fun c => c.isDigit) then some (digitsToNat s.data)
  else none

/-- Models the external libprocess helper that renders an HTTP status code as
text; only the fact that the rendering names the decimal code matters here. -/
def statusString (code : Nat) : String := toString code

/-- The libprocess constant http Status OK, compared against in curl.cpp. -/
def httpStatusOK : Nat := 200

/-- Embedding of the continuation step in src/src/uri/fetchers/curl.cpp
(the file-local function whose name is underscore fetch): it inspects the
awaited exit status, stdout and stderr of the curl subprocess and decides the
overall outcome of the fetch. -/
def fetchStep (status : Fut (Option Int)) (out err : Fut String) :
    Except String Unit :=
  match status with
  | .failed msg =>
      .error ("Failed to get the exit status of the curl subprocess: " ++ msg)
  | .discarded =>
      .error ("Failed to get the exit status of the curl subprocess: discarded")
  | .ready none => .error "Failed to reap the curl subprocess"
  | .ready (some code) =>
      if code ≠ 0 then
        match err with
        | .failed msg =>
            .error ("Failed to perform curl. Reading stderr failed: " ++ msg)
        | .discarded =>
            .error ("Failed to perform curl. Reading stderr failed: discarded")
        | .ready e => .error ("Failed to perform curl: " ++ e)
      else
        match out with
        | .failed msg =>
            .error ("Failed to read stdout from curl: " ++ msg)
        | .discarded =>
            .error ("Failed to read stdout from curl: discarded")
        | .ready o =>
            match numify o with
            | none => .error ("Unexpected output from curl: " ++ o)
            | some code =>
                if code ≠ httpStatusOK then
                  .error ("Unexpected HTTP response code: " ++ statusString code)
                else .ok ()

/-- A URI as far as CurlFetcherPlugin fetch inspects it: whether a path is
set (the protobuf has-path bit plus the path itself). -/
structure URI where
  path : Option String
  deriving DecidableEq, Repr

/-- Embedding of CurlFetcherPlugin fetch from src/src/uri/fetchers/curl.cpp.
The directory creation and the spawning of the curl subprocess are external
effects; the awaited subprocess results (exit status, stdout, stderr) are
passed in, and the function then behaves as the awaited continuation. -/
def CurlFetcherPlugin.fetch (uri : URI)
    (status : Fut (Option Int)) (out err : Fut String) : Except String Unit :=
  if uri.path = none then .error "URI path is not specified"
  else fetchStep status out err

/-- C10: for every fetch invocation whose curl subprocess exits with status 0
and whose stdout parses as an integer HTTP code, the result succeeds iff that
code is exactly 200; any other final response code fails with a message naming
the unexpected code. -/
theorem c10_curl_fetch_succeeds_iff_200 (uri : URI) (p o : String)
    (e : Fut String) (code : Nat)
    (hp : uri.path = some p) (hn : numify o = some code) :
    (CurlFetcherPlugin.fetch uri (.ready (some 0)) (.ready o) e = .ok () ↔
      code = 200) ∧
    (code ≠ 200 →
      CurlFetcherPlugin.fetch uri (.ready (some 0)) (.ready o) e =
        .error ("Unexpected HTTP response code: " ++ statusString code)) := by
  simp only [CurlFetcherPlugin.fetch, hp, fetchStep, hn, httpStatusOK]
  constructor
  · by_cases h : code = 200 <;> simp [h]
  · intro h
    simp [h]

/-- Witness for C10 at concrete inputs: stdout 200 succeeds, stdout 204 fails
naming the code. -/
theorem c10_curl_fetch_succeeds_iff_200_witness :
    (CurlFetcherPlugin.fetch ⟨some "/a"⟩ (.ready (some 0)) (.ready "200")
        .discarded = .ok () ↔ (200 : Nat) = 200) ∧
    ((204 : Nat) ≠ 200 →
      CurlFetcherPlugin.fetch ⟨some "/a"⟩ (.ready (some 0)) (.ready "204")
          .discarded =
        .error ("Unexpected HTTP response code: " ++ statusString 204)) :=
  ⟨(c10_curl_fetch_succeeds_iff_200 ⟨some "/a"⟩ "/a" "200" .discarded 200
      rfl (by decide)).1,
   (c10_curl_fetch_succeeds_iff_200 ⟨some "/a"⟩ "/a" "204" .discarded 204
      rfl (by decide)).2⟩

/-- Modelled from the spec: the decoded claims of a registry bearer token
(token_manager.cpp is not under src/).  Per the spec the claims carry access
grants, aud, iss, iat, jti, sub and optional exp and nbf; only exp and nbf
drive creation and validity, the rest are carried verbatim.  Times are
seconds. -/
structure TokenClaims where
  exp : Option Int
  nbf : Option Int
  aud : String
  iss : String
  iat : Int
  jti : String
  sub : String
  deriving DecidableEq, Repr

/-- A successfully created bearer token wraps its decoded claims. -/
structure Token where
  claims : TokenClaims
  deriving DecidableEq, Repr

/-- Modelled from the spec: Token create (token_manager.cpp is not under
src/).  The decoding of the three base64url segments and the JSON parse of the
claims segment are the precondition of every statement below, reflected by
taking the already-decoded claims as input; a malformed raw token fails before
this point.  Creation fails iff an exp claim is present and already past, and
succeeds when exp is absent (the token never expires). -/
def Token.create (c : TokenClaims) (now : Int) : Except String Token :=
  match c.exp with
  | some e => if e < now then .error "Token expired" else .ok ⟨c⟩
  | none => .ok ⟨c⟩

/-- Modelled from the spec: isValid, re-evaluated at point of use; it requires
that nbf is absent or not in the future. -/
def Token.isValid (t : Token) (now : Int) : Bool :=
  match t.claims.nbf with
  | some n => decide (n ≤ now)
  | none => true

/-- C2: for decoded, JSON-parsed claims, Token create fails iff an exp claim
is present and exp is before now (succeeding when exp is absent); a created
token whose nbf claim is in the future reports isValid false; and a created
token with nbf absent or at most now reports isValid true. -/
theorem c2_token_create_and_validity (c : TokenClaims) (now : Int) :
    ((∃ msg, Token.create c now = .error msg) ↔
      ∃ e, c.exp = some e ∧ e < now) ∧
    (c.exp = none → Token.create c now = .ok ⟨c⟩) ∧
    (∀ t, Token.create c now = .ok t →
      (t.isValid now = true ↔ (c.nbf = none ∨ ∃ n, c.nbf = some n ∧ n ≤ now))) := by
  refine ⟨?_, ?_, ?_⟩
  · constructor
    · intro ⟨msg, hmsg⟩
      match he : c.exp with
      | none => simp [Token.create, he] at hmsg
      | some e =>
          refine ⟨e, rfl, ?_⟩
          by_contra hlt
          simp [Token.create, he, hlt] at hmsg
    · rintro ⟨e, he, hlt⟩
      exact ⟨"Token expired", by simp [Token.create, he, hlt]⟩
  · intro he
    simp [Token.create, he]
  · intro t ht
    have hc : t.claims = c := by
      match he : c.exp with
      | none =>
          simp [Token.create, he] at ht
          simp [← ht]
      | some e =>
          by_cases hlt : e < now <;> simp [Token.create, he, hlt] at ht
          simp [← ht]
    match hn : c.nbf with
    | none => simp [Token.isValid, hc, hn]
    | some n => simp [Token.isValid, hc, hn]

/-- Witness for C2 at concrete claims: exp in the past fails, no exp
succeeds, future nbf gives isValid false. -/
theorem c2_token_create_and_validity_witness :
    ((∃ msg,
        Token.create ⟨some 5, some 3, "a", "i", 0, "j", ""⟩ 10 = .error msg) ↔
      ∃ e, (some (5 : Int) : Option Int) = some e ∧ e < 10) ∧
    ((∀ t, Token.create ⟨none, some 20, "a", "i", 0, "j", ""⟩ 10 = .ok t →
      (t.isValid 10 = true ↔
        ((some (20 : Int) : Option Int) = none ∨
          ∃ n, (some (20 : Int) : Option Int) = some n ∧ n ≤ 10)))) :=
  ⟨(c2_token_create_and_validity ⟨some 5, some 3, "a", "i", 0, "j", ""⟩ 10).1,
   (c2_token_create_and_validity ⟨none, some 20, "a", "i", 0, "j", ""⟩ 10).2.2⟩

/-- One history entry of a schema-1 manifest: the v1Compatibility id and
parent id. -/
structure V1Compat where
  id : String
  parent : String
  deriving DecidableEq, Repr

/-- One signature entry of a schema-1 manifest: the JWK header kid and alg,
the signature and the protected header (the last is named protectedHdr because
protected is a Lean keyword). -/
structure SignatureDoc where
  kid : String
  alg : String
  signature : String
  protectedHdr : String
  deriving DecidableEq, Repr

/-- Modelled from the spec: a schema-version-1 manifest JSON document, in the
shape the codec inspects (spec.cpp is not under src/).  The spec treats a
missing and an empty fsLayers or signatures array identically, so both are
represented by the empty list. -/
structure ManifestDoc where
  name : String
  tag : String
  architecture : String
  schemaVersion : Nat
  fsLayers : List String
  history : List V1Compat
  signatures : List SignatureDoc
  deriving DecidableEq, Repr

/-- The typed manifest returned by the codec, mirroring the
DockerImageManifest protobuf message. -/
structure DockerImageManifest where
  name : String
  tag : String
  architecture : String
  schemaVersion : Nat
  fsLayers : List String
  history : List V1Compat
  signatures : List SignatureDoc
  deriving DecidableEq, Repr

/-- Modelled from the spec: the Manifest Codec parse (spec.cpp is not under
src/).  It validates schema version 1 structurally — fsLayers and signatures
must each be present and non-empty, a ValidationError otherwise — and on
success copies every field verbatim into the typed manifest; no cryptographic
check of the JWS signature is performed. -/
def spec.parse (d : ManifestDoc) : Except String DockerImageManifest :=
  if d.fsLayers = [] then
    .error "ValidationError: fsLayers must be non-empty"
  else if d.signatures = [] then
    .error "ValidationError: signatures must be non-empty"
  else
    .ok ⟨d.name, d.tag, d.architecture, d.schemaVersion, d.fsLayers,
         d.history, d.signatures⟩

/-- C5: a schema-version-1 manifest document parses iff fsLayers and
signatures are each present and non-empty, and on success every field of the
input round-trips verbatim into the typed manifest. -/
theorem c5_manifest_parse_iff_and_roundtrip (d : ManifestDoc) :
    ((∃ m, spec.parse d = .ok m) ↔ d.fsLayers ≠ [] ∧ d.signatures ≠ []) ∧
    (∀ m, spec.parse d = .ok m →
      m.name = d.name ∧ m.tag = d.tag ∧ m.architecture = d.architecture ∧
      m.schemaVersion = d.schemaVersion ∧ m.fsLayers = d.fsLayers ∧
      m.history = d.history ∧ m.signatures = d.signatures) := by
  constructor
  · constructor
    · intro ⟨m, hm⟩
      by_cases hf : d.fsLayers = [] <;>
        by_cases hs : d.signatures = [] <;>
        simp [spec.parse, hf, hs] at hm ⊢
    · rintro ⟨hf, hs⟩
      exact ⟨⟨d.name, d.tag, d.architecture, d.schemaVersion, d.fsLayers,
              d.history, d.signatures⟩, by simp [spec.parse, hf, hs]⟩
  · intro m hm
    by_cases hf : d.fsLayers = [] <;>
      by_cases hs : d.signatures = [] <;>
      simp [spec.parse, hf, hs] at hm
    simp [← hm]

/-- Witness for C5 at a concrete document with one layer, one history entry
and one signature. -/
theorem c5_manifest_parse_iff_and_roundtrip_witness :
    ((∃ m, spec.parse ⟨"n", "t", "amd64", 1, ["sha256:d"], [⟨"i", "p"⟩],
        [⟨"k", "ES256", "s", "ph"⟩]⟩ = .ok m) ↔
      (["sha256:d"] : List String) ≠ [] ∧
      ([(⟨"k", "ES256", "s", "ph"⟩ : SignatureDoc)] : List SignatureDoc) ≠ []) :=
  (c5_manifest_parse_iff_and_roundtrip
    ⟨"n", "t", "amd64", 1, ["sha256:d"], [⟨"i", "p"⟩],
     [⟨"k", "ES256", "s", "ph"⟩]⟩).1

/-- A parsed WWW-Authenticate bearer challenge: realm, service and scope. -/
structure Challenge where
  realm : String
  service : String
  scope : String
  deriving DecidableEq, Repr

/-- One HTTP response as the registry client inspects it: the status code,
the bearer challenge of a 401, the Location header of a redirect, the declared
Content-Length, the body (a manifest document or a blob string), and the
errors-array message strings parsed from a JSON error body. -/
structure Resp (β : Type) where
  status : Nat
  challenge : Option Challenge
  location : Option String
  contentLength : Nat
  body : β
  errorMessages : List String
  deriving DecidableEq, Repr

/-- Failure kinds surfaced by the registry client. -/
inductive RegError where
  | network (msg : String)
  | auth (msg : String)
  | validation (msg : String)
  | server (msg : String)
  deriving DecidableEq, Repr

/-- Decides whether a status code is a 2xx success. -/
def is2xx (s : Nat) : Bool := 200 ≤ s && s < 300

/-- Decides whether a status code is a 3xx redirect. -/
def is3xx (s : Nat) : Bool := 300 ≤ s && s < 400

/-- Joins the error message strings of a server JSON body for visibility. -/
def joinMsgs : List String → String
  | [] => ""
  | [m] => m
  | m :: m2 :: rest => m ++ ", " ++ joinMsgs (m2 :: rest)

/-- Every message of the list occurs verbatim inside the joined string. -/
theorem mem_data_infix_joinMsgs (msgs : List String) (m : String)
    (hm : m ∈ msgs) : m.data <:+: (joinMsgs msgs).data := by
  induction msgs with
  | nil => cases hm
  | cons a tail ih =>
      match tail with
      | [] =>
          have ha : m = a := by simpa using hm
          subst ha
          exact List.infix_refl m.data
      | b :: rest =>
          rcases List.mem_cons.mp hm with h | h
          · subst h
            have : (joinMsgs (m :: b :: rest)).data =
                m.data ++ ((", " ++ joinMsgs (b :: rest)).data) := by
              simp [joinMsgs, String.data_append]
            rw [this]
            exact (List.prefix_append _ _).isInfix
          · have hsuf : (joinMsgs (b :: rest)).data <:+:
                (joinMsgs (a :: b :: rest)).data := by
              have : (joinMsgs (a :: b :: rest)).data =
                  (a ++ ", ").data ++ (joinMsgs (b :: rest)).data := by
                simp [joinMsgs, String.data_append]
              rw [this]
              exact (List.suffix_append _ _).isInfix
            exact (ih h).trans hsuf

/-- Modelled from the spec: the authentication flow shared by getManifest and
getBlob (registry_client.cpp is not under src/).  The server interaction is a
list of successive responses.  The first response, when it is a 401 carrying a
bearer challenge, leads to a token request against the owned Token Acquirer
(abstracted as the acquire argument) and a retried GET whose response is the
next list element; any other first response is final.  A 401 without a
challenge, a token-acquisition failure, and a missing response surface as
AuthError and NetworkError respectively. -/
def authGet {β : Type} (acquire : Challenge → Except String String) :
    List (Resp β) → Except RegError (Resp β × List (Resp β))
  | [] => .error (.network "connection failed")
  | r :: rest =>
      if r.status = 401 then
        match r.challenge with
        | none => .error (.auth "unauthorized response without a bearer challenge")
        | some ch =>
            match acquire ch with
            | .error msg => .error (.auth msg)
            | .ok _token =>
                match rest with
                | [] => .error (.network "connection failed")
                | r2 :: rest2 => .ok (r2, rest2)
      else .ok (r, rest)

/-- Modelled from the spec: getManifest (registry_client.cpp is not under
src/).  After the auth flow, a 2xx response hands the body to the Manifest
Codec, propagating its failure verbatim as a ValidationError; any other final
status fails with a ServerError aggregating every errors-array message string
of the JSON body. -/
def getManifest (acquire : Challenge → Except String String)
    (rs : List (Resp ManifestDoc)) : Except RegError DockerImageManifest :=
  match authGet acquire rs with
  | .error e => .error e
  | .ok (r, _) =>
      if is2xx r.status then
        match spec.parse r.body with
        | .ok m => .ok m
        | .error e => .error (.validation e)
      else .error (.server (joinMsgs r.errorMessages))

/-- Handles the final blob response: a 2xx body is streamed to the
destination file and the byte count returned; any other status is a
ServerError aggregating the errors-array messages. -/
def finishBlob (r : Resp String) : Except RegError (String × Nat) :=
  if is2xx r.status then .ok (r.body, r.body.length)
  else .error (.server (joinMsgs r.errorMessages))

/-- Modelled from the spec: getBlob (registry_client.cpp is not under src/).
It follows the identical auth flow, additionally following exactly one 3xx
redirect via the Location header before streaming the final response body to
the destination path.  The result pairs the outcome (on success, the file
content written to the destination path and the number of bytes written) with
the count of redirects followed. -/
def getBlob (acquire : Challenge → Except String String)
    (rs : List (Resp String)) : Except RegError (String × Nat) × Nat :=
  match authGet acquire rs with
  | .error e => (.error e, 0)
  | .ok (r, rest) =>
      if is3xx r.status then
        match r.location with
        | none => (.error (.network "redirect without a Location header"), 0)
        | some _loc =>
            match rest with
            | [] => (.error (.network "connection failed"), 1)
            | r2 :: _ => (finishBlob r2, 1)
      else (finishBlob r, 0)

/-- C3: for every manifest request whose auth flow ends with a 2xx response,
getManifest returns exactly the Manifest Codec parse of that response body —
in particular the history entries of the returned manifest appear in the same
order as in the body — and propagates the codec failure verbatim when the body
does not parse. -/
theorem c3_getManifest_returns_codec_parse
    (acquire : Challenge → Except String String)
    (rs : List (Resp ManifestDoc)) (r : Resp ManifestDoc)
    (rest : List (Resp ManifestDoc))
    (hflow : authGet acquire rs = .ok (r, rest)) (h2 : is2xx r.status = true) :
    (∀ m, spec.parse r.body = .ok m →
      getManifest acquire rs = .ok m ∧ m.history = r.body.history) ∧
    (∀ e, spec.parse r.body = .error e →
      getManifest acquire rs = .error (.validation e)) := by
  constructor
  · intro m hm
    refine ⟨by simp [getManifest, hflow, h2, hm], ?_⟩
    by_cases hf : r.body.fsLayers = [] <;>
      by_cases hs : r.body.signatures = [] <;>
      simp [spec.parse, hf, hs] at hm
    simp [← hm]
  · intro e he
    simp [getManifest, hflow, h2, he]

/-- Witness for C3: a one-response interaction whose 2xx body parses, and a
one-response interaction whose 2xx body has no signatures. -/
theorem c3_getManifest_returns_codec_parse_witness :
    (getManifest (fun _ => .ok "tok")
        [⟨200, none, none, 0,
          ⟨"n", "t", "amd64", 1, ["l"], [⟨"i2", "i1"⟩, ⟨"i1", ""⟩],
           [⟨"k", "ES256", "s", "ph"⟩]⟩, []⟩] =
      .ok ⟨"n", "t", "amd64", 1, ["l"], [⟨"i2", "i1"⟩, ⟨"i1", ""⟩],
           [⟨"k", "ES256", "s", "ph"⟩]⟩ ∧
      ([(⟨"i2", "i1"⟩ : V1Compat), ⟨"i1", ""⟩] : List V1Compat) =
        [⟨"i2", "i1"⟩, ⟨"i1", ""⟩]) ∧
    getManifest (fun _ => .ok "tok")
        [⟨200, none, none, 0,
          ⟨"n", "t", "amd64", 1, ["l"], [], []⟩, []⟩] =
      .error (.validation "ValidationError: signatures must be non-empty") :=
  ⟨(c3_getManifest_returns_codec_parse (fun _ => .ok "tok")
      [⟨200, none, none, 0,
        ⟨"n", "t", "amd64", 1, ["l"], [⟨"i2", "i1"⟩, ⟨"i1", ""⟩],
         [⟨"k", "ES256", "s", "ph"⟩]⟩, []⟩]
      ⟨200, none, none, 0,
        ⟨"n", "t", "amd64", 1, ["l"], [⟨"i2", "i1"⟩, ⟨"i1", ""⟩],
         [⟨"k", "ES256", "s", "ph"⟩]⟩, []⟩ [] rfl rfl).1
      ⟨"n", "t", "amd64", 1, ["l"], [⟨"i2", "i1"⟩, ⟨"i1", ""⟩],
       [⟨"k", "ES256", "s", "ph"⟩]⟩ rfl,
   (c3_getManifest_returns_codec_parse (fun _ => .ok "tok")
      [⟨200, none, none, 0, ⟨"n", "t", "amd64", 1, ["l"], [], []⟩, []⟩]
      ⟨200, none, none, 0, ⟨"n", "t", "amd64", 1, ["l"], [], []⟩, []⟩ []
      rfl rfl).2
      "ValidationError: signatures must be non-empty" rfl⟩

/-- C4: for every getBlob interaction whose auth flow yields a 3xx response,
the client follows exactly one redirect via the Location header, the file at
the destination path afterwards contains exactly the final response body, and
the returned byte count equals the final response declared content length. -/
theorem c4_getBlob_follows_one_redirect
    (acquire : Challenge → Except String String)
    (rs : List (Resp String)) (r3 rf : Resp String)
    (rest : List (Resp String)) (loc : String)
    (hflow : authGet acquire rs = .ok (r3, rf :: rest))
    (h3 : is3xx r3.status = true) (hloc : r3.location = some loc)
    (h2 : is2xx rf.status = true)
    (hlen : rf.contentLength = rf.body.length) :
    getBlob acquire rs = (.ok (rf.body, rf.contentLength), 1) := by
  simp [getBlob, hflow, h3, hloc, finishBlob, h2, hlen]

/-- Witness for C4: a 401 challenge, then a 307 redirect, then a 200 body of
twelve bytes. -/
theorem c4_getBlob_follows_one_redirect_witness :
    getBlob (fun _ => .ok "tok")
        [⟨401, some ⟨"r", "s", "sc"⟩, none, 0, "", []⟩,
         ⟨307, none, some "https://x", 0, "", []⟩,
         ⟨200, none, none, 12, "hello docker", []⟩] =
      (.ok ("hello docker", 12), 1) :=
  c4_getBlob_follows_one_redirect (fun _ => .ok "tok") _
    ⟨307, none, some "https://x", 0, "", []⟩
    ⟨200, none, none, 12, "hello docker", []⟩ [] "https://x"
    rfl rfl rfl rfl rfl

/-- C8: for every response with a non-2xx status other than the initial 401
challenge, both getBlob and getManifest fail with a ServerError whose message
contains every errors-array message string from the JSON body. -/
theorem c8_non2xx_aggregates_error_messages
    (acquire : Challenge → Except String String)
    (rsb : List (Resp String)) (rb : Resp String) (restb : List (Resp String))
    (rsm : List (Resp ManifestDoc)) (rm : Resp ManifestDoc)
    (restm : List (Resp ManifestDoc))
    (hb : authGet acquire rsb = .ok (rb, restb))
    (h2b : is2xx rb.status = false) (h3b : is3xx rb.status = false)
    (hm : authGet acquire rsm = .ok (rm, restm))
    (h2m : is2xx rm.status = false) :
    ((getBlob acquire rsb).1 = .error (.server (joinMsgs rb.errorMessages)) ∧
      ∀ s ∈ rb.errorMessages, s.data <:+: (joinMsgs rb.errorMessages).data) ∧
    (getManifest acquire rsm = .error (.server (joinMsgs rm.errorMessages)) ∧
      ∀ s ∈ rm.errorMessages, s.data <:+: (joinMsgs rm.errorMessages).data) := by
  refine ⟨⟨?_, fun s hs => mem_data_infix_joinMsgs _ s hs⟩,
          ⟨?_, fun s hs => mem_data_infix_joinMsgs _ s hs⟩⟩
  · simp [getBlob, hb, h3b, finishBlob, h2b]
  · simp [getManifest, hm, h2m]

/-- Witness for C8: a 400 response whose body carries messages Error1 and
Error2; both strings occur in the aggregated failure. -/
theorem c8_non2xx_aggregates_error_messages_witness :
    ((getBlob (fun _ => .ok "tok")
        [⟨400, none, none, 0, "", ["Error1", "Error2"]⟩]).1 =
      .error (.server (joinMsgs ["Error1", "Error2"])) ∧
      ∀ s ∈ ["Error1", "Error2"], s.data <:+: (joinMsgs ["Error1", "Error2"]).data) ∧
    (getManifest (fun _ => .ok "tok")
        [⟨400, none, none, 0, ⟨"", "", "", 1, [], [], []⟩, ["Error1", "Error2"]⟩] =
      .error (.server (joinMsgs ["Error1", "Error2"])) ∧
      ∀ s ∈ ["Error1", "Error2"], s.data <:+: (joinMsgs ["Error1", "Error2"]).data) :=
  c8_non2xx_aggregates_error_messages (fun _ => .ok "tok")
    [⟨400, none, none, 0, "", ["Error1", "Error2"]⟩]
    ⟨400, none, none, 0, "", ["Error1", "Error2"]⟩ []
    [⟨400, none, none, 0, ⟨"", "", "", 1, [], [], []⟩, ["Error1", "Error2"]⟩]
    ⟨400, none, none, 0, ⟨"", "", "", 1, [], [], []⟩, ["Error1", "Error2"]⟩ []
    rfl rfl rfl rfl rfl

/-- Decidable equality for Except results, by cases on the constructors. -/
instance exceptDecEq {ε α : Type} [DecidableEq ε] [DecidableEq α] :
    DecidableEq (Except ε α) := fun a b =>
  match a, b with
  | .ok x, .ok y => decidable_of_iff (x = y) (by simp)
  | .error x, .error y => decidable_of_iff (x = y) (by simp)
  | .ok _, .error _ => isFalse (by simp)
  | .error _, .ok _ => isFalse (by simp)

/-- Splits a character list at every occurrence of the separator, keeping
empty segments, as the stout strings split helper does. -/
def splitOnChar (sep : Char) : List Char → List (List Char)
  | [] => [[]]
  | c :: rest =>
      if c = sep then [] :: splitOnChar sep rest
      else
        match splitOnChar sep rest with
        | [] => [[c]]
        | g :: gs => (c :: g) :: gs

/-- Rejoins segments with the separator, inverse of splitOnChar. -/
def joinChar (sep : Char) : List (List Char) → List Char
  | [] => []
  | [g] => g
  | g :: g2 :: gs => g ++ sep :: joinChar sep (g2 :: gs)

/-- Splitting never produces an empty segment list. -/
theorem splitOnChar_ne_nil (sep : Char) (l : List Char) :
    splitOnChar sep l ≠ [] := by
  cases l with
  | nil => simp [splitOnChar]
  | cons c rest =>
      by_cases h : c = sep
      · simp [splitOnChar, h]
      · simp only [splitOnChar, h, if_false]
        match hs : splitOnChar sep rest with
        | [] => simp
        | g :: gs => simp

/-- Rejoining the split recovers the original list. -/
theorem joinChar_splitOnChar (sep : Char) (l : List Char) :
    joinChar sep (splitOnChar sep l) = l := by
  induction l with
  | nil => simp [splitOnChar, joinChar]
  | cons c rest ih =>
      by_cases h : c = sep
      · subst h
        simp only [splitOnChar, if_pos rfl]
        match hs : splitOnChar c rest with
        | [] => exact absurd hs (splitOnChar_ne_nil c rest)
        | g :: gs =>
            rw [hs] at ih
            simp [joinChar, ih]
      · simp only [splitOnChar, h, if_false]
        match hs : splitOnChar sep rest with
        | [] => exact absurd hs (splitOnChar_ne_nil sep rest)
        | [g] =>
            rw [hs] at ih
            simp [joinChar] at ih ⊢
            exact ih
        | g :: g2 :: gs =>
            rw [hs] at ih
            simp [joinChar] at ih ⊢
            exact ih

/-- A list without the separator splits into a single segment. -/
theorem splitOnChar_of_not_mem (sep : Char) (l : List Char)
    (h : sep ∉ l) : splitOnChar sep l = [l] := by
  induction l with
  | nil => simp [splitOnChar]
  | cons c rest ih =>
      have hc : c ≠ sep := fun hcs => h (hcs ▸ List.mem_cons_self c rest)
      have hrest : sep ∉ rest := fun hm => h (List.mem_cons_of_mem c hm)
      simp only [splitOnChar, hc, if_false, ih hrest]

/-- An image reference: optional registry host with optional port, the
repository path, and the tag (a content digest may be stored in the tag
slot). -/
structure ImageName where
  registry : Option String
  repository : String
  tag : String
  deriving DecidableEq, Repr

/-- Modelled from the spec: the repository-and-tag part of parseImageName
(the implementation file is not under src/).  After the optional registry has
been removed, an at sign separates the repository from a content digest, which
is stored in the tag slot; otherwise a colon separates repository from tag;
otherwise the tag defaults to latest.  The repository must be non-empty. -/
def parseTagPart (registry : Option String) (base : List Char) :
    Except String ImageName :=
  match splitOnChar ':' base with
  | [repo, tag] =>
      if repo = [] then .error "repository must be non-empty"
      else .ok ⟨registry, ⟨repo⟩, ⟨tag⟩⟩
  | [repo] =>
      if repo = [] then .error "repository must be non-empty"
      else .ok ⟨registry, ⟨repo⟩, "latest"⟩
  | _ => .error "invalid image name"

/-- Modelled from the spec: the digest-or-tag stage of parseImageName; see
parseTagPart for the colon stage. -/
def parseRepoTag (registry : Option String) (rest : List Char) :
    Except String ImageName :=
  match splitOnChar '@' rest with
  | [repo, digest] =>
      if repo = [] then .error "repository must be non-empty"
      else .ok ⟨registry, ⟨repo⟩, ⟨digest⟩⟩
  | [base] => parseTagPart registry base
  | _ => .error "invalid image name"

/-- Modelled from the spec: parseImageName (the implementation file is not
under src/, only the DockerUtilsTest cases).  Splitting the input on slashes,
more than two components mean the first is a registry host, possibly with a
port; with at most two components no registry is present, as in the tests
where library/busybox has no registry and registry.io/library/busybox does. -/
def parseImageName (s : String) : Except String ImageName :=
  match splitOnChar '/' s.data with
  | c1 :: c2 :: c3 :: cs =>
      parseRepoTag (some ⟨c1⟩) (joinChar '/' (c2 :: c3 :: cs))
  | _ => parseRepoTag none s.data

/-- A string built from a non-empty character list is non-empty. -/
theorem mk_ne_empty (l : List Char) (h : l ≠ []) : String.mk l ≠ "" := by
  intro hc
  exact h (by simpa using congrArg String.data hc)

/-- The tag stage leaves the registry argument untouched and never returns an
empty repository. -/
theorem parseTagPart_ok (registry : Option String) (base : List Char)
    (n : ImageName) (hok : parseTagPart registry base = .ok n) :
    n.registry = registry ∧ n.repository ≠ "" := by
  unfold parseTagPart at hok
  split at hok
  · split at hok
    · exact absurd hok (by simp)
    · injection hok with h
      subst h
      exact ⟨rfl, mk_ne_empty _ (by assumption)⟩
  · split at hok
    · exact absurd hok (by simp)
    · injection hok with h
      subst h
      exact ⟨rfl, mk_ne_empty _ (by assumption)⟩
  · exact absurd hok (by simp)

/-- The digest stage leaves the registry argument untouched and never returns
an empty repository. -/
theorem parseRepoTag_ok (registry : Option String) (rest : List Char)
    (n : ImageName) (hok : parseRepoTag registry rest = .ok n) :
    n.registry = registry ∧ n.repository ≠ "" := by
  unfold parseRepoTag at hok
  split at hok
  · split at hok
    · exact absurd hok (by simp)
    · injection hok with h
      subst h
      exact ⟨rfl, mk_ne_empty _ (by assumption)⟩
  · exact parseTagPart_ok registry _ n hok
  · exact absurd hok (by simp)

/-- C9: every accepted image name has a non-empty repository; with no at-sign
digest and no colon tag in the part after the optional registry, the tag
defaults to latest; a content digest following the at sign is stored in the
tag slot; and the leading host component is split into the registry field,
which is absent when the input has at most two slash components. -/
theorem c9_parseImageName_properties :
    (∀ s n, parseImageName s = .ok n → n.repository ≠ "") ∧
    (∀ registry rest n, '@' ∉ rest → ':' ∉ rest →
      parseRepoTag registry rest = .ok n → n.tag = "latest") ∧
    (∀ registry rest repo digest n, splitOnChar '@' rest = [repo, digest] →
      parseRepoTag registry rest = .ok n → n.tag = ⟨digest⟩) ∧
    (∀ s n, parseImageName s = .ok n →
      ((splitOnChar '/' s.data).length ≤ 2 → n.registry = none) ∧
      (∀ c1 c2 c3 cs, splitOnChar '/' s.data = c1 :: c2 :: c3 :: cs →
        n.registry = some ⟨c1⟩)) := by
  have hfull : ∀ s (n : ImageName), parseImageName s = .ok n →
      (match splitOnChar '/' s.data with
        | c1 :: _ :: _ :: _ => n.registry = some (⟨c1⟩ : String)
        | _ => n.registry = none) ∧ n.repository ≠ "" := by
    intro s n hok
    unfold parseImageName at hok
    split at hok
    next c1 c2 c3 cs heq =>
        have h := parseRepoTag_ok _ _ _ hok
        exact ⟨h.1, h.2⟩
    next h2 =>
        have h := parseRepoTag_ok _ _ _ hok
        constructor
        · match hs : splitOnChar '/' s.data with
          | [] => exact h.1
          | [c1] => exact h.1
          | [c1, c2] => exact h.1
          | c1 :: c2 :: c3 :: cs => exact absurd rfl (by rw [hs] at h2; exact h2 c1 c2 c3 cs)
        · exact h.2
  refine ⟨fun s n hok => (hfull s n hok).2, ?_, ?_, ?_⟩
  · intro registry rest n hna hnc hok
    have h1 : parseRepoTag registry rest = parseTagPart registry rest := by
      unfold parseRepoTag
      rw [splitOnChar_of_not_mem '@' rest hna]
    have h2 : parseTagPart registry rest =
        if rest = [] then .error "repository must be non-empty"
        else .ok ⟨registry, ⟨rest⟩, "latest"⟩ := by
      unfold parseTagPart
      rw [splitOnChar_of_not_mem ':' rest hnc]
    rw [h1, h2] at hok
    by_cases hr : rest = []
    · rw [if_pos hr] at hok
      exact absurd hok (by simp)
    · rw [if_neg hr] at hok
      injection hok with h
      subst h
      rfl
  · intro registry rest repo digest n hsplit hok
    have h1 : parseRepoTag registry rest =
        if repo = [] then .error "repository must be non-empty"
        else .ok ⟨registry, ⟨repo⟩, ⟨digest⟩⟩ := by
      unfold parseRepoTag
      rw [hsplit]
    rw [h1] at hok
    by_cases hr : repo = []
    · rw [if_pos hr] at hok
      exact absurd hok (by simp)
    · rw [if_neg hr] at hok
      injection hok with h
      subst h
      rfl
  · intro s n hok
    have h := (hfull s n hok).1
    constructor
    · intro hlen
      match hs : splitOnChar '/' s.data with
      | [] => rw [hs] at h; exact h
      | [c1] => rw [hs] at h; exact h
      | [c1, c2] => rw [hs] at h; exact h
      | c1 :: c2 :: c3 :: cs => rw [hs] at hlen; simp at hlen
    · intro c1 c2 c3 cs hs
      rw [hs] at h
      exact h

/-- Witness for C9 at the image names of the DockerUtilsTest cases. -/
theorem c9_parseImageName_properties_witness :
    ((⟨none, "library/busybox", "latest"⟩ : ImageName).repository ≠ "") ∧
    ((⟨none, "busybox", "latest"⟩ : ImageName).tag = "latest") ∧
    ((⟨none, "library/busybox", "sha256:d"⟩ : ImageName).tag =
      (⟨"sha256:d".data⟩ : String)) ∧
    ((⟨some "registry.io", "library/busybox", "latest"⟩ : ImageName).registry =
      some (⟨"registry.io".data⟩ : String)) :=
  ⟨c9_parseImageName_properties.1 "library/busybox"
      ⟨none, "library/busybox", "latest"⟩ (by decide),
   c9_parseImageName_properties.2.1 none "busybox".data
      ⟨none, "busybox", "latest"⟩ (by decide) (by decide) (by decide),
   c9_parseImageName_properties.2.2.1 none "library/busybox@sha256:d".data
      "library/busybox".data "sha256:d".data
      ⟨none, "library/busybox", "sha256:d"⟩ (by decide) (by decide),
   (c9_parseImageName_properties.2.2.2 "registry.io/library/busybox"
      ⟨some "registry.io", "library/busybox", "latest"⟩ (by decide)).2
      "registry.io".data "library".data "busybox".data [] (by decide)⟩

/-- The eight image names exercised by DockerUtilsTest ParseImageName, with
the registry, repository and tag values the test expects. -/
theorem parseImageName_test_vectors :
    parseImageName "library/busybox" =
      .ok ⟨none, "library/busybox", "latest"⟩ ∧
    parseImageName "busybox" = .ok ⟨none, "busybox", "latest"⟩ ∧
    parseImageName "library/busybox:tag" =
      .ok ⟨none, "library/busybox", "tag"⟩ ∧
    parseImageName "library/busybox@sha256:bc8813ea7b" =
      .ok ⟨none, "library/busybox", "sha256:bc8813ea7b"⟩ ∧
    parseImageName "registry.io/library/busybox" =
      .ok ⟨some "registry.io", "library/busybox", "latest"⟩ ∧
    parseImageName "registry.io/library/busybox:tag" =
      .ok ⟨some "registry.io", "library/busybox", "tag"⟩ ∧
    parseImageName "registry.io:80/library/busybox:tag" =
      .ok ⟨some "registry.io:80", "library/busybox", "tag"⟩ ∧
    parseImageName "registry.io:80/library/busybox@sha256:bc8813ea7b" =
      .ok ⟨some "registry.io:80", "library/busybox", "sha256:bc8813ea7b"⟩ := by
  refine ⟨?_, ?_, ?_, ?_, ?_, ?_, ?_, ?_⟩ <;> decide

/-- One layer of a local docker save archive: the parent pointer recorded in
its json file (empty for the root layer) and the files held by its
layer.tar. -/
structure LocalLayer where
  parent : String
  tarFiles : List (String × String)
  deriving DecidableEq, Repr

/-- Modelled from the spec: a local archive as the local Puller reads it — a
repositories index mapping repository to tag to top layer id, and a
per-layer-id entry holding the parent pointer and the layer tar. -/
structure LocalArchive where
  repositories : List (String × List (String × String))
  layers : List (String × LocalLayer)
  deriving DecidableEq, Repr

/-- Failure kinds of the local Puller. -/
inductive PullError where
  | notFound
  | brokenChain
  deriving DecidableEq, Repr

/-- Modelled from the spec: the parent walk of the local Puller (the
implementation file is not under src/).  Starting from a layer id it follows
parent pointers until a layer whose parent is empty, producing the chain
top-first; the fuel bounds the walk so a cycle or a dangling reference is
reported as a broken chain. -/
def walkUp (arch : LocalArchive) : Nat → String → Except PullError (List String)
  | 0, _ => .error .brokenChain
  | fuel + 1, id =>
      match arch.layers.lookup id with
      | none => .error .brokenChain
      | some l =>
          if l.parent = "" then .ok [id]
          else
            match walkUp arch fuel l.parent with
            | .ok c => .ok (id :: c)
            | .error e => .error e

/-- Checks that each id in the list names a layer whose parent is the
previous element, the given one for the head; with the empty id as the seed
this says the list is a root-first parent chain. -/
def linkedFrom (arch : LocalArchive) (prev : String) : List String → Bool
  | [] => true
  | x :: xs =>
      match arch.layers.lookup x with
      | some l => l.parent = prev && linkedFrom arch x xs
      | none => false

/-- The files each chain id contributes, read from its layer tar. -/
def extractedFiles (arch : LocalArchive) (id : String) : List (String × String) :=
  match arch.layers.lookup id with
  | some l => l.tarFiles
  | none => []

/-- Modelled from the spec: the local Puller pull (the implementation file is
not under src/).  It looks up the top layer id for the requested repository
and tag (NotFoundError when absent), walks parent pointers back to the layer
whose parent is empty, and yields the chain in root-first order, each id
paired with the files extracted from its layer tar. -/
def localPull (arch : LocalArchive) (repo tag : String) :
    Except PullError (List (String × List (String × String))) :=
  match (arch.repositories.lookup repo).bind (fun tags => tags.lookup tag) with
  | none => .error .notFound
  | some top =>
      match walkUp arch (arch.layers.length + 1) top with
      | .ok c => .ok ((c.reverse).map (fun id => (id, extractedFiles arch id)))
      | .error e => .error e

/-- Appending one more id to a linked chain stays linked when the id links to
the last element. -/
theorem linkedFrom_append (arch : LocalArchive) (prev : String)
    (xs : List String) (y : String) (l : LocalLayer)
    (hxs : linkedFrom arch prev xs = true)
    (hy : arch.layers.lookup y = some l)
    (hpar : l.parent = xs.getLastD prev) :
    linkedFrom arch prev (xs ++ [y]) = true := by
  induction xs generalizing prev with
  | nil =>
      simp only [List.nil_append]
      simp [linkedFrom, hy, hpar]
  | cons x xs ih =>
      simp only [List.cons_append]
      simp only [linkedFrom] at hxs ⊢
      match hx : arch.layers.lookup x with
      | none => rw [hx] at hxs; exact absurd hxs (by simp)
      | some lx =>
          rw [hx] at hxs
          simp only [Bool.and_eq_true] at hxs
          simp only [Bool.and_eq_true]
          refine ⟨hxs.1, ih x hxs.2 ?_⟩
          rw [hpar]
          cases xs with
          | nil => simp
          | cons a as => simp only [List.getLastD_cons]

/-- A successful parent walk starts at the queried id and, reversed, is a
root-first chain: the head layer has an empty parent and every later layer
names the previous id as its parent. -/
theorem walkUp_ok (arch : LocalArchive) (fuel : Nat) (id : String)
    (c : List String) (hok : walkUp arch fuel id = .ok c) :
    c.head? = some id ∧ linkedFrom arch "" c.reverse = true := by
  induction fuel generalizing id c with
  | zero => exact absurd hok (by simp [walkUp])
  | succ fuel ih =>
      unfold walkUp at hok
      match hl : arch.layers.lookup id with
      | none => rw [hl] at hok; exact absurd hok (by simp)
      | some l =>
          rw [hl] at hok
          have hok2 : (if l.parent = "" then Except.ok [id]
              else match walkUp arch fuel l.parent with
                | .ok c => Except.ok (id :: c)
                | .error e =>
                    (Except.error e : Except PullError (List String))) =
              Except.ok c := hok
          by_cases hp : l.parent = ""
          · rw [if_pos hp] at hok2
            injection hok2 with h
            subst h
            refine ⟨rfl, ?_⟩
            simp [linkedFrom, hl, hp]
          · rw [if_neg hp] at hok2
            match hw : walkUp arch fuel l.parent with
            | .error e => rw [hw] at hok2; exact absurd hok2 (by simp)
            | .ok c0 =>
                rw [hw] at hok2
                have hok3 : Except.ok (id :: c0) = Except.ok c := hok2
                injection hok3 with h
                subst h
                obtain ⟨hhead, hlink⟩ := ih l.parent c0 hw
                refine ⟨rfl, ?_⟩
                simp only [List.reverse_cons]
                refine linkedFrom_append arch "" c0.reverse id l hlink hl ?_
                cases c0 with
                | nil => exact absurd hhead (by simp)
                | cons a as =>
                    have ha : a = l.parent := by simpa using hhead
                    simp [List.getLastD_eq_getLast?, List.getLast?_reverse, ha]

/-- C7: for every local archive whose repositories index maps the requested
repository and tag to a top layer id, a successful local pull yields a
root-first parent chain ending at that top id, each entry carrying the files
of that layer tar; in particular the two-layer example archive of the tests
yields the chain 123 then 456 with the archived files. -/
theorem c7_localPull_root_first_chain (arch : LocalArchive) (repo tag top : String)
    (layers : List (String × List (String × String)))
    (htop : (arch.repositories.lookup repo).bind (fun tags => tags.lookup tag) =
      some top)
    (hok : localPull arch repo tag = .ok layers) :
    linkedFrom arch "" (layers.map Prod.fst) = true ∧
    (layers.map Prod.fst).getLast? = some top ∧
    (∀ p ∈ layers, p.2 = extractedFiles arch p.1) := by
  unfold localPull at hok
  rw [htop] at hok
  have hok2 : (match walkUp arch (arch.layers.length + 1) top with
      | .ok c =>
          Except.ok ((c.reverse).map (fun id => (id, extractedFiles arch id)))
      | .error e =>
          (Except.error e :
            Except PullError (List (String × List (String × String))))) =
      Except.ok layers := hok
  match hw : walkUp arch (arch.layers.length + 1) top with
  | .error e => rw [hw] at hok2; exact absurd hok2 (by simp)
  | .ok c =>
      rw [hw] at hok2
      have hok3 : Except.ok
          ((c.reverse).map (fun id => (id, extractedFiles arch id))) =
          Except.ok layers := hok2
      injection hok3 with h
      subst h
      obtain ⟨hhead, hlink⟩ := walkUp_ok arch _ top c hw
      have hmapfst : ((c.reverse).map
          (fun id => (id, extractedFiles arch id))).map Prod.fst = c.reverse := by
        rw [List.map_map]
        exact List.map_id c.reverse
      refine ⟨by rw [hmapfst]; exact hlink, ?_, ?_⟩
      · rw [hmapfst, List.getLast?_reverse]
        exact hhead
      · intro p hp
        simp only [List.mem_map] at hp
        obtain ⟨id, _, hid⟩ := hp
        rw [← hid]

/-- Witness for C7 at the archive of the local store tests: layer 123 with
empty parent and file temp containing foo 123, layer 456 with parent 123 and
file temp containing bar 456, the index mapping abc latest to 456. -/
theorem c7_localPull_root_first_chain_witness :
    linkedFrom
      ⟨[("abc", [("latest", "456")])],
       [("123", ⟨"", [("temp", "foo 123")]⟩),
        ("456", ⟨"123", [("temp", "bar 456")]⟩)]⟩ ""
      (([("123", [("temp", "foo 123")]),
         ("456", [("temp", "bar 456")])].map Prod.fst)) = true ∧
    (([("123", [("temp", "foo 123")]),
       ("456", [("temp", "bar 456")])].map Prod.fst)).getLast? = some "456" ∧
    (∀ p ∈ [("123", [("temp", "foo 123")]),
            ("456", [("temp", "bar 456")])],
      p.2 = extractedFiles
        ⟨[("abc", [("latest", "456")])],
         [("123", ⟨"", [("temp", "foo 123")]⟩),
          ("456", ⟨"123", [("temp", "bar 456")]⟩)]⟩ p.1) :=
  c7_localPull_root_first_chain
    ⟨[("abc", [("latest", "456")])],
     [("123", ⟨"", [("temp", "foo 123")]⟩),
      ("456", ⟨"123", [("temp", "bar 456")]⟩)]⟩
    "abc" "latest" "456"
    [("123", [("temp", "foo 123")]), ("456", [("temp", "bar 456")])]
    (by decide) (by decide)

/-- The end-to-end check of the local store test: pulling abc latest from the
two-layer archive yields the root-first chain 123 then 456 with the archived
file contents. -/
theorem localPull_test_vector :
    localPull
      ⟨[("abc", [("latest", "456")])],
       [("123", ⟨"", [("temp", "foo 123")]⟩),
        ("456", ⟨"123", [("temp", "bar 456")]⟩)]⟩ "abc" "latest" =
      .ok [("123", [("temp", "foo 123")]), ("456", [("temp", "bar 456")])] := by
  decide

/-- Layer rootfs paths returned to a store caller, root first. -/
abbrev Layers := List String

/-- Sets the value of a key in an association list, appending when absent. -/
def setKey {α : Type} (k : String) (v : α) :
    List (String × α) → List (String × α)
  | [] => [(k, v)]
  | (k2, v2) :: rest =>
      if k2 = k then (k, v) :: rest else (k2, v2) :: setKey k v rest

/-- Removes a key from an association list. -/
def eraseKey {α : Type} (k : String) :
    List (String × α) → List (String × α)
  | [] => []
  | (k2, v2) :: rest =>
      if k2 = k then eraseKey k rest else (k2, v2) :: eraseKey k rest

/-- Looking up a key just set yields the new value. -/
theorem lookup_setKey_self {α : Type} (k : String) (v : α)
    (l : List (String × α)) : (setKey k v l).lookup k = some v := by
  induction l with
  | nil => simp [setKey, List.lookup]
  | cons e rest ih =>
      obtain ⟨k2, v2⟩ := e
      by_cases hk : k2 = k
      · simp [setKey, hk, List.lookup]
      · have hbeq : (k == k2) = false := by
          simp [beq_iff_eq]
          exact fun h => hk h.symm
        simp [setKey, hk, List.lookup, hbeq, ih]

/-- A lookup hit surviving a filter is still the first hit afterwards. -/
theorem lookup_filter {α : Type} (p : String × α → Bool)
    (l : List (String × α)) (k : String) (v : α)
    (h : l.lookup k = some v) (hp : p (k, v) = true) :
    (l.filter p).lookup k = some v := by
  induction l with
  | nil => simp [List.lookup] at h
  | cons e rest ih =>
      obtain ⟨k2, v2⟩ := e
      by_cases hk : k = k2
      · subst hk
        have hv : v2 = v := by simpa [List.lookup] using h
        subst hv
        simp [List.filter, hp, List.lookup]
      · have hbeq : (k == k2) = false := by
          simp [beq_iff_eq]
          exact hk
        have hrest : rest.lookup k = some v := by
          simpa [List.lookup, hbeq] using h
        by_cases hpe : p (k2, v2) = true
        · simp [List.filter, hpe, List.lookup, hbeq, ih hrest]
        · simp only [Bool.not_eq_true] at hpe
          simp [List.filter, hpe, ih hrest]

/-- The state a Store instance owns: the Metadata Manager map of cached
image keys to layer lists, and the in-flight pull markers, each an image key
with the callers waiting on the shared pending result.  The spec serializes
all store operations on one dispatch context, so concurrent gets are the
successive steps below. -/
structure StoreState where
  cached : List (String × Layers)
  pulling : List (String × List Nat)
  deriving DecidableEq, Repr

/-- What one caller of Store get observes immediately: a cached layer list,
or a pending attachment to an in-flight pull. -/
inductive GetResult where
  | cachedResult (layers : Layers)
  | pending
  deriving DecidableEq, Repr

/-- Modelled from the spec: Store get (store.cpp is not under src/).  A
cached entry is returned immediately with no Puller invocation; on a miss
with an existing in-flight marker the caller attaches to it; on a miss with
no marker a marker is created and the Puller invoked.  The result is the new
state, what the caller observes, and whether this call invoked the Puller. -/
def Store.get (s : StoreState) (key : String) (caller : Nat) :
    StoreState × GetResult × Bool :=
  match s.cached.lookup key with
  | some ls => (s, .cachedResult ls, false)
  | none =>
      match s.pulling.lookup key with
      | some ws =>
          ({ s with pulling := setKey key (ws ++ [caller]) s.pulling },
           .pending, false)
      | none =>
          ({ s with pulling := (key, [caller]) :: s.pulling }, .pending, true)

/-- Runs a sequence of Store get calls for one key, returning the final state
and how many of the calls invoked the Puller. -/
def runGets (key : String) : StoreState → List Nat → StoreState × Nat
  | s, [] => (s, 0)
  | s, c :: cs =>
      let r := Store.get s key c
      let r2 := runGets key r.1 cs
      (r2.1, (if r.2.2 then 1 else 0) + r2.2)

/-- Modelled from the spec: Metadata Manager put, persisting the image to
layers mapping; the write-then-rename file step is modelled as the atomic map
update it guarantees. -/
def MetadataManager.put (key : String) (ls : Layers)
    (cached : List (String × Layers)) : List (String × Layers) :=
  setKey key ls cached

/-- Modelled from the spec: completion of an in-flight pull (store.cpp is not
under src/).  Every caller that joined the marker is resolved with the
identical result; on success the mapping is registered with the Metadata
Manager before the waiters resolve; the marker is deleted either way and a
failure is not cached. -/
def Store.completePull (s : StoreState) (key : String)
    (result : Except String Layers) :
    StoreState × List (Nat × Except String Layers) :=
  match s.pulling.lookup key with
  | none => (s, [])
  | some ws =>
      ({ cached :=
           match result with
           | .ok ls => MetadataManager.put key ls s.cached
           | .error _ => s.cached,
         pulling := eraseKey key s.pulling },
       ws.map (fun w => (w, result)))

/-- Modelled from the spec: Metadata Manager recover (metadata_manager.cpp is
not under src/): it scans the persisted index and keeps exactly the entries
whose referenced layer directories still exist on disk. -/
def MetadataManager.recover (disk : List (String × Layers))
    (dirExists : String → Bool) : List (String × Layers) :=
  disk.filter (fun e => e.2.all dirExists)

/-- Modelled from the spec: Store creation followed by recover — a fresh
store whose cached map is the recovered persisted index, with no in-flight
markers. -/
def Store.create (disk : List (String × Layers)) (dirExists : String → Bool) :
    StoreState :=
  { cached := MetadataManager.recover disk dirExists, pulling := [] }

/-- Gets that find an in-flight marker only append their callers to it: no
Puller invocation, the cached map untouched. -/
theorem runGets_joins (key : String) (cs : List Nat) :
    ∀ (s : StoreState) (ws : List Nat),
      s.cached.lookup key = none →
      s.pulling.lookup key = some ws →
      (runGets key s cs).2 = 0 ∧
      (runGets key s cs).1.cached = s.cached ∧
      (runGets key s cs).1.pulling.lookup key = some (ws ++ cs) := by
  induction cs with
  | nil =>
      intro s ws h1 h2
      refine ⟨rfl, rfl, ?_⟩
      simpa using h2
  | cons c cs ih =>
      intro s ws h1 h2
      have hget : Store.get s key c =
          ({ s with pulling := setKey key (ws ++ [c]) s.pulling },
           .pending, false) := by
        simp [Store.get, h1, h2]
      have h1s : (StoreState.mk s.cached
          (setKey key (ws ++ [c]) s.pulling)).cached.lookup key = none := h1
      have h2s : (StoreState.mk s.cached
          (setKey key (ws ++ [c]) s.pulling)).pulling.lookup key =
          some (ws ++ [c]) := lookup_setKey_self key (ws ++ [c]) s.pulling
      obtain ⟨hn, hcached, hlook⟩ := ih _ _ h1s h2s
      refine ⟨?_, ?_, ?_⟩
      · simp [runGets, hget, hn]
      · simpa [runGets, hget] using hcached
      · have : (ws ++ [c]) ++ cs = ws ++ c :: cs := by simp
        rw [← this]
        simpa [runGets, hget] using hlook

/-- C1: for an image key with no cached entry and no in-flight pull, a batch
of concurrent Store get calls — the first issued on the miss, the rest while
the pull is in flight — invokes the Puller exactly once, and completing the
pull resolves every one of the callers with the identical result. -/
theorem c1_store_deduplicates_concurrent_pulls (s : StoreState) (key : String)
    (c : Nat) (cs : List Nat) (r : Except String Layers)
    (hc : s.cached.lookup key = none) (hp : s.pulling.lookup key = none) :
    (runGets key s (c :: cs)).2 = 1 ∧
    (Store.completePull (runGets key s (c :: cs)).1 key r).2 =
      (c :: cs).map (fun w => (w, r)) := by
  have hget : Store.get s key c =
      ({ s with pulling := (key, [c]) :: s.pulling }, .pending, true) := by
    simp [Store.get, hc, hp]
  have h1s : (StoreState.mk s.cached
      ((key, [c]) :: s.pulling)).cached.lookup key = none := hc
  have h2s : (StoreState.mk s.cached
      ((key, [c]) :: s.pulling)).pulling.lookup key = some [c] := by
    simp [List.lookup]
  obtain ⟨hn, hcached, hlook⟩ := runGets_joins key cs _ [c] h1s h2s
  constructor
  · simp [runGets, hget, hn]
  · have hfinal : (runGets key s (c :: cs)).1.pulling.lookup key =
        some (c :: cs) := by
      have : [c] ++ cs = c :: cs := by simp
      rw [← this]
      simpa [runGets, hget] using hlook
    simp [Store.completePull, hfinal]

/-- Witness for C1: three concurrent gets for an uncached key invoke the
Puller once and all three callers resolve with the same layer list. -/
theorem c1_store_deduplicates_concurrent_pulls_witness :
    (runGets "abc:latest" ⟨[], []⟩ [1, 2, 3]).2 = 1 ∧
    (Store.completePull (runGets "abc:latest" ⟨[], []⟩ [1, 2, 3]).1 "abc:latest"
        (.ok ["/l/123", "/l/456"])).2 =
      [1, 2, 3].map (fun w => (w, .ok ["/l/123", "/l/456"])) :=
  c1_store_deduplicates_concurrent_pulls ⟨[], []⟩ "abc:latest" 1 [2, 3]
    (.ok ["/l/123", "/l/456"]) (by decide) (by decide)

/-- C6: a Store get on a key the Metadata Manager holds — directly, or
recovered from a persisted index whose referenced directories exist, as after
the Store is destroyed and re-created — returns the cached layer list
immediately, without invoking the Puller and without changing state. -/
theorem c6_store_get_cached_without_puller (s : StoreState) (key : String)
    (ls : Layers) (caller : Nat) (disk : List (String × Layers))
    (dirExists : String → Bool)
    (hs : s.cached.lookup key = some ls)
    (hdisk : disk.lookup key = some ls)
    (hdirs : ls.all dirExists = true) :
    Store.get s key caller = (s, .cachedResult ls, false) ∧
    Store.get (Store.create disk dirExists) key caller =
      (Store.create disk dirExists, .cachedResult ls, false) := by
  constructor
  · simp [Store.get, hs]
  · have hrec : (Store.create disk dirExists).cached.lookup key = some ls :=
      lookup_filter _ disk key ls hdisk hdirs
    simp [Store.get, hrec]

/-- Witness for C6: the image abc with two persisted layers is returned from
the recovered index with no Puller invocation. -/
theorem c6_store_get_cached_without_puller_witness :
    Store.get ⟨[("abc", ["/l/123", "/l/456"])], []⟩ "abc" 7 =
      (⟨[("abc", ["/l/123", "/l/456"])], []⟩,
       .cachedResult ["/l/123", "/l/456"], false) ∧
    Store.get (Store.create [("abc", ["/l/123", "/l/456"])] (fun _ => true))
        "abc" 7 =
      (Store.create [("abc", ["/l/123", "/l/456"])] (fun _ => true),
       .cachedResult ["/l/123", "/l/456"], false) :=
  c6_store_get_cached_without_puller ⟨[("abc", ["/l/123", "/l/456"])], []⟩
    "abc" ["/l/123", "/l/456"] 7 [("abc", ["/l/123", "/l/456"])]
    (fun _ => true) (by decide) (by decide) (by decide)

end Mesos
